import Mathlib

/-!
Verification development for the wallet-service currency-rate query service.

The Go source is shallowly embedded: pure helpers become Lean functions,
handlers become functions from the responses of their external collaborators
(cache backend, relational store, rate provider, predictor) to the produced
HTTP outcome together with the trace of outbound calls and the log lines
emitted.  float64 rate values are carried opaquely and modelled as `Rat`
(no arithmetic is ever performed on them); Go maps are modelled as
association lists; calendar values are modelled as (year, month, day)
triples since every time value manipulated by the service is a midnight
date.
-/

namespace WalletService

/-! ## Calendar dates (internal/currency_helpers/time.go)

`CustomTime` wraps Go's `time.Time`; every value the service stores or
compares is a midnight UTC calendar date, so the embedding keeps only the
calendar components. -/

structure CustomTime where
  year : Nat
  month : Nat
  day : Nat
deriving DecidableEq, Repr

/-- Gregorian leap-year rule used by Go's `time` package. -/
def isLeapYear (y : Nat) : Bool :=
  y % 4 == 0 && (y % 100 != 0 || y % 400 == 0)

def daysInMonth (y m : Nat) : Nat :=
  if m == 2 then (if isLeapYear y then 29 else 28)
  else if m == 4 || m == 6 || m == 9 || m == 11 then 30
  else 31

def ValidDate (d : CustomTime) : Prop :=
  1 ≤ d.year ∧ 1 ≤ d.month ∧ d.month ≤ 12 ∧ 1 ≤ d.day ∧ d.day ≤ daysInMonth d.year d.month

instance (d : CustomTime) : Decidable (ValidDate d) := by
  unfold ValidDate; infer_instance

/-- Successor date; embeds the normalisation Go's `time.Date` applies to an
out-of-range day component. -/
def nextDay (d : CustomTime) : CustomTime :=
  if d.day < daysInMonth d.year d.month then ⟨d.year, d.month, d.day + 1⟩
  else if d.month < 12 then ⟨d.year, d.month + 1, 1⟩
  else ⟨d.year + 1, 1, 1⟩

/-- Predecessor date: the value of Go's `time.Date(y, m, d-1, ...)` and of
`time.Now().AddDate(0, 0, -1)` ("yesterday"). -/
def prevDay (d : CustomTime) : CustomTime :=
  if 1 < d.day then ⟨d.year, d.month, d.day - 1⟩
  else if 1 < d.month then ⟨d.year, d.month - 1, daysInMonth d.year (d.month - 1)⟩
  else ⟨d.year - 1, 12, 31⟩

/-- `time.Date(todayY, todayM, todayD + n, ...)`: n days after `d`. -/
def addDays (d : CustomTime) (n : Nat) : CustomTime :=
  nextDay^[n] d

/-- `time.Date(todayY - 1, todayM, todayD, ...)`: one calendar year back.
(Go would normalise Feb 29 to Mar 1 in a non-leap target year; no claim
depends on that corner, the value only appears inside a provider URL.) -/
def prevYearSameDay (d : CustomTime) : CustomTime :=
  ⟨d.year - 1, d.month, d.day⟩

/-- `t.Before(u)` / `t.After(u)` for midnight dates: strict calendar order. -/
def dateLt (a b : CustomTime) : Bool :=
  decide (a.year < b.year) ||
    (decide (a.year = b.year) && decide (a.month < b.month)) ||
    (decide (a.year = b.year) && decide (a.month = b.month) && decide (a.day < b.day))

/-! ### The date codec -/

/-- `CustomTimeLayout = "2006-01-02"`: digit character for one decimal digit. -/
def digitChar (n : Nat) : Char := Char.ofNat (48 + n)

def dval (c : Char) : Nat := c.toNat - 48

def isDigitChar (c : Char) : Bool := 48 ≤ c.toNat && c.toNat ≤ 57

def pad2 (n : Nat) : List Char := [digitChar (n / 10 % 10), digitChar (n % 10)]

def pad4 (n : Nat) : List Char :=
  [digitChar (n / 1000 % 10), digitChar (n / 100 % 10), digitChar (n / 10 % 10), digitChar (n % 10)]

/-- `ct.Time.Format(CustomTimeLayout)`: canonical `YYYY-MM-DD` text. -/
def formatDate (d : CustomTime) : String :=
  String.mk (pad4 d.year ++ '-' :: pad2 d.month ++ '-' :: pad2 d.day)

/-- `time.Parse(CustomTimeLayout, s)`: accepts exactly `YYYY-MM-DD` with a
calendar-valid month and day (Go validates the day against the month's
length), and rejects everything else. -/
def parseDateChars : List Char → Option CustomTime
  | [y1, y2, y3, y4, '-', m1, m2, '-', d1, d2] =>
    if isDigitChar y1 && isDigitChar y2 && isDigitChar y3 && isDigitChar y4 &&
       isDigitChar m1 && isDigitChar m2 && isDigitChar d1 && isDigitChar d2 then
      let y := dval y1 * 1000 + dval y2 * 100 + dval y3 * 10 + dval y4
      let m := dval m1 * 10 + dval m2
      let d := dval d1 * 10 + dval d2
      if 1 ≤ m && m ≤ 12 && 1 ≤ d && d ≤ daysInMonth y m then some ⟨y, m, d⟩ else none
    else none
  | _ => none

def parseDate (s : String) : Option CustomTime :=
  parseDateChars s.data

/-- `nilTime`: the zero `time.Time`, i.e. January 1 of year 1.  The Go code
stores its `UnixNano()`; for the midnight dates of years 0-9999 that
nanosecond count collides with no other date, so comparing against the zero
date is equivalent. -/
def nilTime : CustomTime := ⟨1, 1, 1⟩

/-- `strings.Trim(s, "\"")`. -/
def trimQuotes (s : String) : String :=
  String.mk (((s.data.dropWhile (· == '"')).reverse.dropWhile (· == '"')).reverse)

/-- `CustomTime.MarshalJSON`: the unset sentinel serialises to the literal
`null` token, any other value to its quoted canonical text. -/
def CustomTime.MarshalJSON (ct : CustomTime) : String :=
  if ct = nilTime then "null" else "\"" ++ formatDate ct ++ "\""

/-- `CustomTime.UnmarshalJSON` restricted to the canonical layout; the
RFC3339 fallback branch of the source is exercised by no claim and is
modelled as a parse failure. -/
def CustomTime.UnmarshalJSON (b : String) : Option CustomTime :=
  let s := trimQuotes b
  if s == "null" then some nilTime else parseDate s

/-! ## Data model (internal/currency_helpers)

Go maps become association lists; `alookup` is the map read (first match;
the builders below keep keys unique exactly as a Go map does). -/

def alookup {κ α : Type} [DecidableEq κ] (l : List (κ × α)) (k : κ) : Option α :=
  (l.find? (fun p => decide (p.1 = k))).map (fun p => p.2)

structure CurrencyRate where
  base : String
  second : String
  rate : Rat
  date : CustomTime
deriving DecidableEq, Repr

structure CurrencyRates where
  base : String
  rates : List (String × Rat)
  date : CustomTime
deriving DecidableEq, Repr

structure CurrencyRatesResponse where
  success : Bool
  payload : CurrencyRates
deriving DecidableEq, Repr

/-- `CurrencyRates.ToResultRate`: projects one target out of a snapshot.
A target absent from the `rates` map yields Go's zero value `0`. -/
def CurrencyRates.ToResultRate (cr : CurrencyRates) (currencyCode : String) : CurrencyRate :=
  { base := cr.base
    second := currencyCode
    rate := (alookup cr.rates currencyCode).getD 0
    date := cr.date }

structure CurrencyWithBanStatus where
  currency : String
  banned : Bool
deriving DecidableEq, Repr

structure CurrencyTimelineRate where
  base : String
  second : String
  rates : List (CustomTime × Rat)
  predictions : List (CustomTime × Rat)
  startDate : CustomTime
  endDate : CustomTime
deriving DecidableEq, Repr

structure CurrencyTimelineRates where
  base : String
  rates : List (CustomTime × List (String × Rat))
  startDate : CustomTime
  endDate : CustomTime
deriving DecidableEq, Repr

structure CurrencyTimelineRatesResponse where
  success : Bool
  payload : CurrencyTimelineRates
deriving DecidableEq, Repr

/-- `CurrencyTimelineRates.ToResultTimelineRates`: per-day projection of one
target currency; a day whose inner map misses the target gets Go's zero
value `0`.  The `Predictions` field is left nil. -/
def CurrencyTimelineRates.ToResultTimelineRates
    (cr : CurrencyTimelineRates) (currencyCode : String) : CurrencyTimelineRate :=
  { base := cr.base
    second := currencyCode
    rates := cr.rates.map (fun p => (p.1, (alookup p.2 currencyCode).getD 0))
    predictions := []
    startDate := cr.startDate
    endDate := cr.endDate }

/-! ## Cache layer (internal/cache/cache.go and its extended variant)

A read against the redis backend either reports the key absent
(`redis.Nil`), fails in transport, or yields a stored string; the stored
string either unmarshals to a typed value or is malformed.  Replies to
writes and deletes are modelled likewise. -/

inductive Stored (α : Type) where
  | absent : Stored α
  | failure (msg : String) : Stored α
  | payload (value : Option α) : Stored α
deriving DecidableEq

inductive RedisReply (α : Type) where
  | failure (msg : String) : RedisReply α
  | reply (value : α) : RedisReply α
deriving DecidableEq

namespace Redis

/-- `Redis.GetAvailableCurrencies`: `redis.Nil` is a non-error absence,
backend failure and malformed payloads surface as errors. -/
def GetAvailableCurrencies (backend : Stored (List CurrencyWithBanStatus)) :
    Except String (Option (List CurrencyWithBanStatus)) :=
  match backend with
  | .absent => .ok none
  | .failure e => .error ("error in getting available currencies: " ++ e)
  | .payload none => .error "parse currency currency availability data"
  | .payload (some v) => .ok (some v)

/-- `Redis.SetAvailableCurrencies`: a SET reply of the empty status string
escalates to the "save no info" error. -/
def SetAvailableCurrencies (statusReply : RedisReply String) : Except String Unit :=
  match statusReply with
  | .failure e => .error ("save available currencies: " ++ e)
  | .reply s => if s == "" then .error "save no info" else .ok ()

/-- `Redis.CleanCacheForAvailableCurrencies`: a DEL count of zero escalates
to the "deleted no info" error. -/
def CleanCacheForAvailableCurrencies (delReply : RedisReply Nat) : Except String Unit :=
  match delReply with
  | .failure e => .error ("del available currencies: " ++ e)
  | .reply n => if n == 0 then .error "deleted no info" else .ok ()

/-- `Redis.GetCurrencyLastRate`: on a stored snapshot for the base key the
read already projects the requested target out of it via `ToResultRate`. -/
def GetCurrencyLastRate (backend : Stored CurrencyRates) (second : String) :
    Except String (Option CurrencyRate) :=
  match backend with
  | .absent => .ok none
  | .failure e => .error ("get currency last rate error: " ++ e)
  | .payload none => .error "parse currency rate data"
  | .payload (some snap) => .ok (some (snap.ToResultRate second))

/-- `Redis.SetCurrencyLastRate`: an HSET reply counting zero newly created
fields escalates to the "save no info" error. -/
def SetCurrencyLastRate (hsetReply : RedisReply Nat) : Except String Unit :=
  match hsetReply with
  | .failure e => .error ("save currency last rate: " ++ e)
  | .reply n => if n == 0 then .error "save no info" else .ok ()

/-- `Redis.GetTimestampRate` (extended cache variant): stored timeline for
the `base:second` composite key. -/
def GetTimestampRate (backend : Stored CurrencyTimelineRate) :
    Except String (Option CurrencyTimelineRate) :=
  match backend with
  | .absent => .ok none
  | .failure e => .error ("get timestamp rate error: " ++ e)
  | .payload none => .error "parse timestamp rate data"
  | .payload (some v) => .ok (some v)

/-- `Redis.SaveTimestampRate`: same zero-count escalation as the point-rate
write. -/
def SaveTimestampRate (hsetReply : RedisReply Nat) : Except String Unit :=
  match hsetReply with
  | .failure e => .error ("save currency last rate: " ++ e)
  | .reply n => if n == 0 then .error "save no info" else .ok ()

/-! Stateful view of the two hash writes, for the claims about redis HSET
semantics: HSET stores the value unconditionally and returns the number of
newly created fields, which is `0` when the field already existed. -/

/-- Redis HSET on one field: new store plus the created-fields count. -/
def hset {α : Type} (store : List (String × α)) (field : String) (value : α) :
    List (String × α) × Nat :=
  if (store.find? (fun p => decide (p.1 = field))).isSome then
    (store.map (fun p => if p.1 = field then (field, value) else p), 0)
  else
    (store ++ [(field, value)], 1)

/-- `Redis.SetCurrencyLastRate` run against an explicit backend hash keyed
by base currency. -/
def SetCurrencyLastRateState (store : List (String × CurrencyRates))
    (currencyRates : CurrencyRates) :
    List (String × CurrencyRates) × Except String Unit :=
  let r := hset store currencyRates.base currencyRates
  (r.1, if r.2 == 0 then .error "save no info" else .ok ())

/-- `Redis.SaveTimestampRate` run against an explicit backend hash keyed by
the `base:second` composite. -/
def SaveTimestampRateState (store : List (String × CurrencyTimelineRate))
    (rate : CurrencyTimelineRate) :
    List (String × CurrencyTimelineRate) × Except String Unit :=
  let r := hset store (rate.base ++ ":" ++ rate.second) rate
  (r.1, if r.2 == 0 then .error "save no info" else .ok ())

end Redis

/-! ## Query orchestrator (the HTTP handlers)

Each handler is a function from its request parameters, "today", and the
replies of its external collaborators to a `FlowOut`: the outbound calls it
performed in order, the log lines it emitted, and the HTTP outcome.  The
static `CodeToCurrency` registry is not part of the provided sources, so the
handlers are parametrised by the list of registry codes. -/

inductive Effect where
  | cacheReadAvail : Effect
  | dbSelectBans (codes : List String) : Effect
  | cacheWriteAvail (result : List CurrencyWithBanStatus) : Effect
  | dbUpsertBan (code : String) (bannedFlag : Bool) : Effect
  | cacheInvalidateAvail : Effect
  | cacheReadLastRate (base : String) : Effect
  | providerFetchSnapshot (asOf : CustomTime) (base : String) : Effect
  | cacheWriteLastRate (snapshot : CurrencyRates) : Effect
  | cacheReadTimeline (base second : String) : Effect
  | providerFetchTimeline (startD endD : CustomTime) (base second : String) : Effect
  | predictorCall (history : List (CustomTime × Rat)) : Effect
  | cacheWriteTimeline (rate : CurrencyTimelineRate) : Effect
deriving DecidableEq

inductive HOutcome (α : Type) where
  | ok (body : α) : HOutcome α
  | clientError (msg : String) : HOutcome α
  | serverError (msg : String) : HOutcome α
deriving DecidableEq

structure FlowOut (α : Type) where
  trace : List Effect
  logs : List String
  outcome : HOutcome α
deriving DecidableEq

/-- `log.Printf` on the discarded error of a best-effort cache operation. -/
def bestEffortLog (res : Except String Unit) (msg : String) : List String :=
  match res with
  | .ok _ => []
  | .error e => [msg ++ ": " ++ e]

/-! ### Availability flow (`GetAvailableCurrencies`) -/

/-- The Go-map build over the store rows (`cur2banMap`) followed by lookup:
last write wins, so the lookup finds the latest row for a code. -/
def banLookup (rows : List CurrencyWithBanStatus) (c : String) : Option CurrencyWithBanStatus :=
  rows.reverse.find? (fun r => r.currency == c)

/-- The full Registry-sized result before sorting: a store row when one
exists for the code, `banned = false` otherwise. -/
def availUnsorted (registry : List String) (rows : List CurrencyWithBanStatus) :
    List CurrencyWithBanStatus :=
  registry.map (fun curr => (banLookup rows curr).getD ⟨curr, false⟩)

/-- Go byte-wise string comparison `a <= b` (UTF-8 byte order coincides with
code-point order). -/
def goCharsLe : List Char → List Char → Bool
  | [], _ => true
  | _ :: _, [] => false
  | a :: as, b :: bs => if a.toNat = b.toNat then goCharsLe as bs else decide (a.toNat < b.toNat)

/-- The comparator of the `sort.SliceStable` call: banned entries first,
within a group non-decreasing currency code. -/
def availOrder (a b : CurrencyWithBanStatus) : Prop :=
  if a.banned ≠ b.banned then a.banned = true else goCharsLe a.currency.data b.currency.data = true

instance (a b : CurrencyWithBanStatus) : Decidable (availOrder a b) := by
  unfold availOrder; infer_instance

/-- The sorted availability result.  `sort.SliceStable` is a stable sort and
the comparator is a total preorder, so it produces the same list as any
stable sort; `List.insertionSort` is used as the structural stable sort. -/
def availResult (registry : List String) (rows : List CurrencyWithBanStatus) :
    List CurrencyWithBanStatus :=
  List.insertionSort availOrder (availUnsorted registry rows)

structure AvailEnv where
  availBackend : Stored (List CurrencyWithBanStatus)
  dbReply : Except String (List CurrencyWithBanStatus)
  writeReply : RedisReply String

/-- `HttpService.GetAvailableCurrencies`. -/
def GetAvailableCurrencies (registry : List String) (env : AvailEnv) :
    FlowOut (List CurrencyWithBanStatus) :=
  match Redis.GetAvailableCurrencies env.availBackend with
  | .error e => ⟨[.cacheReadAvail], [], .serverError ("error in get available currencies: " ++ e)⟩
  | .ok (some availableCurrencies) => ⟨[.cacheReadAvail], [], .ok availableCurrencies⟩
  | .ok none =>
    match env.dbReply with
    | .error e =>
      ⟨[.cacheReadAvail, .dbSelectBans registry], [],
       .serverError ("error in getting currency to ban data: " ++ e)⟩
    | .ok curr2ban =>
      let result := availResult registry curr2ban
      ⟨[.cacheReadAvail, .dbSelectBans registry, .cacheWriteAvail result],
       bestEffortLog (Redis.SetAvailableCurrencies env.writeReply) "error in save available currencies",
       .ok result⟩

/-! ### Ban mutation flow (`ChangeCurrencyBanStatus`) -/

structure BanEnv where
  dbReply : Except String Unit
  delReply : RedisReply Nat

/-- `HttpService.ChangeCurrencyBanStatus`; `body = none` models a request
body that fails to unmarshal. -/
def ChangeCurrencyBanStatus (registry : List String) (body : Option (String × Bool))
    (env : BanEnv) : FlowOut Unit :=
  match body with
  | none => ⟨[], [], .clientError "error in unmarshalling request"⟩
  | some (currency, bannedFlag) =>
    if !(registry.contains currency) then ⟨[], [], .clientError "invalid currency"⟩
    else match env.dbReply with
    | .error e =>
      ⟨[.dbUpsertBan currency bannedFlag], [],
       .serverError ("error in update currency status: " ++ e)⟩
    | .ok _ =>
      ⟨[.dbUpsertBan currency bannedFlag, .cacheInvalidateAvail],
       bestEffortLog (Redis.CleanCacheForAvailableCurrencies env.delReply)
         "error in clean available currencies",
       .ok ()⟩

/-! ### Current-rate flow (`GetCurrentCurrencyRate`) -/

/-- The freshness test on a cache hit, verbatim from the source:

    rYear < nYear ||
      rYear == nYear && rMonth < nMonth ||
      rYear == nYear && rMonth == nMonth && rDay == nDay

(note the `==` in the day clause). -/
def freshCheck (r n : CustomTime) : Bool :=
  decide (r.year < n.year) ||
    (decide (r.year = n.year) && decide (r.month < n.month)) ||
    (decide (r.year = n.year) && decide (r.month = n.month) && decide (r.day = n.day))

structure CurrentRateEnv where
  lastRateBackend : Stored CurrencyRates
  provider : Option CurrencyRatesResponse
  writeReply : RedisReply Nat

/-- The fall-through of `GetCurrentCurrencyRate` after a cache miss or a
rejected hit: fetch yesterday's snapshot, validate, write through
best-effort, project the pair.  `provider = none` collapses the transport
failure and the JSON-decode failure (both 500s differing only in text). -/
def currentRateFetch (baseParam secondParam : String) (today : CustomTime)
    (env : CurrentRateEnv) (pre : List Effect) : FlowOut CurrencyRate :=
  let fetchEff := Effect.providerFetchSnapshot (prevDay today) baseParam
  match env.provider with
  | none => ⟨pre ++ [fetchEff], [], .serverError "error in get new data"⟩
  | some resp =>
    if !resp.success then
      ⟨pre ++ [fetchEff], [], .serverError "unsuccessful getting new rates"⟩
    else if (alookup resp.payload.rates secondParam).isNone then
      ⟨pre ++ [fetchEff], [], .clientError ("cannot find rate for " ++ secondParam)⟩
    else
      ⟨pre ++ [fetchEff, .cacheWriteLastRate resp.payload],
       bestEffortLog (Redis.SetCurrencyLastRate env.writeReply) "error in save new rate",
       .ok (resp.payload.ToResultRate secondParam)⟩

/-- `HttpService.GetCurrentCurrencyRate`. -/
def GetCurrentCurrencyRate (registry : List String) (baseParam secondParam : String)
    (today : CustomTime) (env : CurrentRateEnv) : FlowOut CurrencyRate :=
  if !(registry.contains baseParam) then ⟨[], [], .clientError "invalid base currency code"⟩
  else if !(registry.contains secondParam) then ⟨[], [], .clientError "invalid second currency code"⟩
  else match Redis.GetCurrencyLastRate env.lastRateBackend secondParam with
  | .error e => ⟨[.cacheReadLastRate baseParam], [], .serverError ("error in get currency rate: " ++ e)⟩
  | .ok (some currencyRate) =>
    if freshCheck currencyRate.date today then
      ⟨[.cacheReadLastRate baseParam], [], .ok currencyRate⟩
    else currentRateFetch baseParam secondParam today env [.cacheReadLastRate baseParam]
  | .ok none => currentRateFetch baseParam secondParam today env [.cacheReadLastRate baseParam]

/-! ### Timeline flow (`GetTimelineCurrencyRate`, cache-aside variant) -/

/-- The prediction-augmentation loop: the value at index `i` of the
predictor's ordered list is keyed by `time.Date(todayY, todayM, todayD + i)`
(the index is incremented after the date is computed, so the first predicted
value lands on today itself). -/
def buildPredictions (today : CustomTime) (predictedRates : List Rat) :
    List (CustomTime × Rat) :=
  predictedRates.enum.map (fun p => (addDays today p.1, p.2))

/-- The response-assembly block at the end of the timeline handler: filter
the full series by `t.Equal(startDate) || t.After(startDate) &&
t.Before(endDate)`, keep the predictions untouched, echo the requested
bounds. -/
def assembleTimelineResult (currencyRate : CurrencyTimelineRate)
    (startDate endDate : CustomTime) : CurrencyTimelineRate :=
  { base := currencyRate.base
    second := currencyRate.second
    rates := currencyRate.rates.filter
      (fun p => decide (p.1 = startDate) || (dateLt startDate p.1 && dateLt p.1 endDate))
    predictions := currencyRate.predictions
    startDate := startDate
    endDate := endDate }

structure TimelineEnv where
  timelineBackend : Stored CurrencyTimelineRate
  provider : Option CurrencyTimelineRatesResponse
  predictor : Option (List Rat)
  writeReply : RedisReply Nat

/-- The cache-miss branch of the timeline flow: fetch the fixed one-year
lookback window ending yesterday, project the pair, call the predictor
(failure is request-fatal), attach the predictions, write through
best-effort. -/
def timelineFetch (baseParam secondParam : String) (today : CustomTime)
    (env : TimelineEnv) (pre : List Effect) : FlowOut CurrencyTimelineRate × Option CurrencyTimelineRate :=
  let fetchEff := Effect.providerFetchTimeline (prevYearSameDay today) (prevDay today)
    baseParam secondParam
  match env.provider with
  | none => (⟨pre ++ [fetchEff], [], .serverError "error in get new data"⟩, none)
  | some resp =>
    if !resp.success then
      (⟨pre ++ [fetchEff], [], .serverError "unsuccessful getting new rates"⟩, none)
    else
      let projected := resp.payload.ToResultTimelineRates secondParam
      match env.predictor with
      | none =>
        (⟨pre ++ [fetchEff, .predictorCall projected.rates], [],
          .serverError "error in get predictions"⟩, none)
      | some predictedRates =>
        let currencyRate := { projected with predictions := buildPredictions today predictedRates }
        (⟨pre ++ [fetchEff, .predictorCall projected.rates, .cacheWriteTimeline currencyRate],
          bestEffortLog (Redis.SaveTimestampRate env.writeReply) "error in save timestamp rate",
          .ok currencyRate⟩, some currencyRate)

/-- `HttpService.GetTimelineCurrencyRate` (the variant with the timeline
cache, fixed lookback window and forecast augmentation). -/
def GetTimelineCurrencyRate (registry : List String)
    (baseParam secondParam startStr endStr : String) (today : CustomTime)
    (env : TimelineEnv) : FlowOut CurrencyTimelineRate :=
  if !(registry.contains baseParam) then ⟨[], [], .clientError "invalid base currency code"⟩
  else if !(registry.contains secondParam) then ⟨[], [], .clientError "invalid second currency code"⟩
  else match parseDate startStr with
  | none => ⟨[], [], .clientError "invalid start period date"⟩
  | some startDate =>
    match parseDate endStr with
    | none => ⟨[], [], .clientError "invalid end period date"⟩
    | some endDate =>
      match Redis.GetTimestampRate env.timelineBackend with
      | .error e =>
        ⟨[.cacheReadTimeline baseParam secondParam], [],
         .serverError ("error in get timestamp rate from cache: " ++ e)⟩
      | .ok (some currencyRate) =>
        ⟨[.cacheReadTimeline baseParam secondParam], [],
         .ok (assembleTimelineResult currencyRate startDate endDate)⟩
      | .ok none =>
        let fetched := timelineFetch baseParam secondParam today env
          [.cacheReadTimeline baseParam secondParam]
        match fetched.2 with
        | none => fetched.1
        | some currencyRate =>
          ⟨fetched.1.trace, fetched.1.logs,
           .ok (assembleTimelineResult currencyRate startDate endDate)⟩

/-! ## Supporting lemmas -/

theorem daysInMonth_pos (y m : Nat) : 1 ≤ daysInMonth y m := by
  unfold daysInMonth
  split_ifs <;> omega

theorem daysInMonth_le (y m : Nat) : daysInMonth y m ≤ 31 := by
  unfold daysInMonth
  split_ifs <;> omega

theorem nextDay_prevDay {d : CustomTime} (hv : ValidDate d) : nextDay (prevDay d) = d := by
  obtain ⟨y, m, day⟩ := d
  obtain ⟨hy, hm1, hm2, hd1, hd2⟩ := hv
  simp only at hy hm1 hm2 hd1 hd2
  by_cases h1 : 1 < day
  · have hp : prevDay ⟨y, m, day⟩ = ⟨y, m, day - 1⟩ := by simp [prevDay, h1]
    rw [hp]
    show (if day - 1 < daysInMonth y m then (⟨y, m, day - 1 + 1⟩ : CustomTime)
      else if m < 12 then ⟨y, m + 1, 1⟩ else ⟨y + 1, 1, 1⟩) = ⟨y, m, day⟩
    rw [if_pos (show day - 1 < daysInMonth y m by omega)]
    have hstep : day - 1 + 1 = day := by omega
    rw [hstep]
  · by_cases h2 : 1 < m
    · have hp : prevDay ⟨y, m, day⟩ = ⟨y, m - 1, daysInMonth y (m - 1)⟩ := by
        simp [prevDay, h1, h2]
      rw [hp]
      show (if daysInMonth y (m - 1) < daysInMonth y (m - 1)
          then (⟨y, m - 1, daysInMonth y (m - 1) + 1⟩ : CustomTime)
        else if m - 1 < 12 then ⟨y, m - 1 + 1, 1⟩ else ⟨y + 1, 1, 1⟩) = ⟨y, m, day⟩
      rw [if_neg (lt_irrefl _), if_pos (show m - 1 < 12 by omega)]
      have hm : m - 1 + 1 = m := by omega
      have hd : day = 1 := by omega
      rw [hm, hd]
    · have hp : prevDay ⟨y, m, day⟩ = ⟨y - 1, 12, 31⟩ := by simp [prevDay, h1, h2]
      rw [hp]
      have hdim : daysInMonth (y - 1) 12 = 31 := by simp [daysInMonth]
      show (if 31 < daysInMonth (y - 1) 12 then (⟨y - 1, 12, 31 + 1⟩ : CustomTime)
        else if (12 : Nat) < 12 then ⟨y - 1, 12 + 1, 1⟩ else ⟨y - 1 + 1, 1, 1⟩) = ⟨y, m, day⟩
      rw [hdim, if_neg (lt_irrefl _), if_neg (by omega : ¬ (12 : Nat) < 12)]
      have hyy : y - 1 + 1 = y := by omega
      have hm : m = 1 := by omega
      have hd : day = 1 := by omega
      rw [hyy, hm, hd]

theorem nextDay_valid {d : CustomTime} (hv : ValidDate d) : ValidDate (nextDay d) := by
  obtain ⟨y, m, day⟩ := d
  obtain ⟨hy, hm1, hm2, hd1, hd2⟩ := hv
  simp only at hy hm1 hm2 hd1 hd2
  unfold nextDay
  dsimp only
  split_ifs with h1 h2
  · exact ⟨hy, hm1, hm2, by dsimp only; omega, by dsimp only; omega⟩
  · have hp := daysInMonth_pos y (m + 1)
    exact ⟨hy, by dsimp only; omega, by dsimp only; omega, by dsimp only; omega,
      by dsimp only; omega⟩
  · have hp := daysInMonth_pos (y + 1) 1
    exact ⟨by dsimp only; omega, by dsimp only; omega, by dsimp only; omega,
      by dsimp only; omega, by dsimp only; omega⟩

theorem addDays_zero (d : CustomTime) : addDays d 0 = d := rfl

theorem addDays_succ (d : CustomTime) (n : Nat) : addDays d (n + 1) = addDays (nextDay d) n :=
  Function.iterate_succ_apply nextDay n d

theorem addDays_succ' (d : CustomTime) (n : Nat) : addDays d (n + 1) = nextDay (addDays d n) :=
  Function.iterate_succ_apply' nextDay n d

theorem dateLt_nextDay (d : CustomTime) : dateLt d (nextDay d) = true := by
  obtain ⟨y, m, day⟩ := d
  unfold nextDay
  split_ifs with h1 h2 <;>
    simp [dateLt]

theorem dateLt_trans {a b c : CustomTime} (h1 : dateLt a b = true) (h2 : dateLt b c = true) :
    dateLt a c = true := by
  simp only [dateLt, Bool.or_eq_true, Bool.and_eq_true, decide_eq_true_eq] at h1 h2 ⊢
  omega

theorem dateLt_addDays {d : CustomTime} {k l : Nat} (h : k < l) :
    dateLt (addDays d k) (addDays d l) = true := by
  induction l with
  | zero => omega
  | succ n ih =>
    rcases Nat.lt_succ_iff_lt_or_eq.mp h with h' | h'
    · exact dateLt_trans (ih h') (by rw [addDays_succ']; exact dateLt_nextDay _)
    · subst h'
      rw [addDays_succ']
      exact dateLt_nextDay _

theorem digitChar_facts : ∀ k, k < 10 →
    isDigitChar (digitChar k) = true ∧ dval (digitChar k) = k ∧ (digitChar k == '-') = false ∧
      (digitChar k == '"') = false := by decide

theorem formatDate_data (y m d : Nat) :
    (formatDate ⟨y, m, d⟩).data
      = [digitChar (y / 1000 % 10), digitChar (y / 100 % 10), digitChar (y / 10 % 10),
         digitChar (y % 10), '-', digitChar (m / 10 % 10), digitChar (m % 10), '-',
         digitChar (d / 10 % 10), digitChar (d % 10)] := by
  simp [formatDate, pad4, pad2]

theorem parseDate_formatDate (y m d : Nat) (hy : y ≤ 9999) (hm1 : 1 ≤ m) (hm2 : m ≤ 12)
    (hd1 : 1 ≤ d) (hd2 : d ≤ daysInMonth y m) :
    parseDate (formatDate ⟨y, m, d⟩) = some ⟨y, m, d⟩ := by
  have h1 := digitChar_facts (y / 1000 % 10) (Nat.mod_lt _ (by norm_num))
  have h2 := digitChar_facts (y / 100 % 10) (Nat.mod_lt _ (by norm_num))
  have h3 := digitChar_facts (y / 10 % 10) (Nat.mod_lt _ (by norm_num))
  have h4 := digitChar_facts (y % 10) (Nat.mod_lt _ (by norm_num))
  have h5 := digitChar_facts (m / 10 % 10) (Nat.mod_lt _ (by norm_num))
  have h6 := digitChar_facts (m % 10) (Nat.mod_lt _ (by norm_num))
  have h7 := digitChar_facts (d / 10 % 10) (Nat.mod_lt _ (by norm_num))
  have h8 := digitChar_facts (d % 10) (Nat.mod_lt _ (by norm_num))
  have hyv : dval (digitChar (y / 1000 % 10)) * 1000 + dval (digitChar (y / 100 % 10)) * 100 +
      dval (digitChar (y / 10 % 10)) * 10 + dval (digitChar (y % 10)) = y := by
    rw [h1.2.1, h2.2.1, h3.2.1, h4.2.1]; omega
  have hmv : dval (digitChar (m / 10 % 10)) * 10 + dval (digitChar (m % 10)) = m := by
    rw [h5.2.1, h6.2.1]; omega
  have hdv : dval (digitChar (d / 10 % 10)) * 10 + dval (digitChar (d % 10)) = d := by
    have h31 := daysInMonth_le y m
    rw [h7.2.1, h8.2.1]; omega
  unfold parseDate
  rw [formatDate_data]
  simp only [parseDateChars]
  rw [h1.1, h2.1, h3.1, h4.1, h5.1, h6.1, h7.1, h8.1]
  simp only [Bool.and_self, if_true]
  rw [hyv, hmv, hdv]
  simp [hm1, hm2, hd1, hd2]

theorem dropWhile_quote_eq_self {a : Char} {l : List Char} (h : (a == '"') = false) :
    (a :: l).dropWhile (· == '"') = a :: l := by
  simp [List.dropWhile_cons, h]

theorem trimQuotes_formatDate (y m d : Nat) :
    trimQuotes (formatDate ⟨y, m, d⟩) = formatDate ⟨y, m, d⟩ := by
  have hh := (digitChar_facts (y / 1000 % 10) (Nat.mod_lt _ (by norm_num))).2.2.2
  have hl := (digitChar_facts (d % 10) (Nat.mod_lt _ (by norm_num))).2.2.2
  unfold trimQuotes
  rw [formatDate_data]
  rw [dropWhile_quote_eq_self hh]
  have hrev : ([digitChar (y / 1000 % 10), digitChar (y / 100 % 10), digitChar (y / 10 % 10),
      digitChar (y % 10), '-', digitChar (m / 10 % 10), digitChar (m % 10), '-',
      digitChar (d / 10 % 10), digitChar (d % 10)] : List Char).reverse
      = [digitChar (d % 10), digitChar (d / 10 % 10), '-', digitChar (m % 10),
         digitChar (m / 10 % 10), '-', digitChar (y % 10), digitChar (y / 10 % 10),
         digitChar (y / 100 % 10), digitChar (y / 1000 % 10)] := by
    simp
  rw [hrev, dropWhile_quote_eq_self hl]
  have hrev2 : ([digitChar (d % 10), digitChar (d / 10 % 10), '-', digitChar (m % 10),
      digitChar (m / 10 % 10), '-', digitChar (y % 10), digitChar (y / 10 % 10),
      digitChar (y / 100 % 10), digitChar (y / 1000 % 10)] : List Char).reverse
      = [digitChar (y / 1000 % 10), digitChar (y / 100 % 10), digitChar (y / 10 % 10),
         digitChar (y % 10), '-', digitChar (m / 10 % 10), digitChar (m % 10), '-',
         digitChar (d / 10 % 10), digitChar (d % 10)] := by
    simp
  rw [hrev2, ← formatDate_data]

theorem formatDate_ne_null (y m d : Nat) : (formatDate ⟨y, m, d⟩ == "null") = false := by
  apply beq_eq_false_iff_ne.mpr
  intro h
  have hlen := congrArg (fun s => s.data.length) h
  have h10 : (formatDate ⟨y, m, d⟩).data.length = 10 := by rw [formatDate_data]; rfl
  have h4 : ("null" : String).data.length = 4 := rfl
  simp only [h10, h4] at hlen
  omega

theorem UnmarshalJSON_formatDate (y m d : Nat) (hy : y ≤ 9999) (hm1 : 1 ≤ m) (hm2 : m ≤ 12)
    (hd1 : 1 ≤ d) (hd2 : d ≤ daysInMonth y m) :
    CustomTime.UnmarshalJSON (formatDate ⟨y, m, d⟩) = some ⟨y, m, d⟩ := by
  unfold CustomTime.UnmarshalJSON
  rw [trimQuotes_formatDate]
  simp only [formatDate_ne_null, Bool.false_eq_true, if_false]
  exact parseDate_formatDate y m d hy hm1 hm2 hd1 hd2

theorem alookup_cons {κ α : Type} [DecidableEq κ] (p : κ × α) (l : List (κ × α)) (k : κ) :
    alookup (p :: l) k = if p.1 = k then some p.2 else alookup l k := by
  by_cases h : p.1 = k <;> simp [alookup, List.find?_cons, h]

theorem alookup_filter {κ α : Type} [DecidableEq κ] (q : κ → Bool) (l : List (κ × α)) (k : κ) :
    alookup (l.filter (fun p => q p.1)) k = if q k then alookup l k else none := by
  induction l with
  | nil => simp [alookup]
  | cons p l ih =>
    rw [List.filter_cons]
    by_cases hq : q p.1
    · rw [if_pos (by simpa using hq), alookup_cons, alookup_cons]
      by_cases hk : p.1 = k
      · rw [if_pos hk, if_pos (hk ▸ hq), if_pos hk]
      · rw [if_neg hk, if_neg hk, ih]
    · rw [if_neg (by simpa using hq), ih, alookup_cons]
      by_cases hk : p.1 = k
      · have hqk : q k = false := by rw [← hk]; simpa using hq
        simp [hqk]
      · rw [if_neg hk]

theorem alookup_overwrite {α : Type} (store : List (String × α)) (field : String) (value : α)
    (h : (alookup store field).isSome = true) :
    alookup (store.map (fun p => if p.1 = field then (field, value) else p)) field
      = some value := by
  induction store with
  | nil => simp [alookup] at h
  | cons p l ih =>
    rw [List.map_cons]
    by_cases hp : p.1 = field
    · rw [if_pos hp, alookup_cons, if_pos rfl]
    · rw [if_neg hp, alookup_cons, if_neg hp]
      rw [alookup_cons, if_neg hp] at h
      exact ih h

theorem hset_existing {α : Type} (store : List (String × α)) (field : String) (value : α)
    (h : (alookup store field).isSome = true) :
    alookup (Redis.hset store field value).1 field = some value
    ∧ (Redis.hset store field value).2 = 0 := by
  have hf : (store.find? (fun p => decide (p.1 = field))).isSome = true := by
    simpa [alookup] using h
  unfold Redis.hset
  rw [if_pos hf]
  exact ⟨alookup_overwrite store field value h, rfl⟩

theorem goCharsLe_total : ∀ as bs : List Char, goCharsLe as bs = true ∨ goCharsLe bs as = true := by
  intro as
  induction as with
  | nil => intro bs; left; rfl
  | cons a as ih =>
    intro bs
    cases bs with
    | nil => right; rfl
    | cons b bs =>
      by_cases h : a.toNat = b.toNat
      · rcases ih bs with h1 | h1
        · left; simpa [goCharsLe, h] using h1
        · right; simpa [goCharsLe, h.symm] using h1
      · rcases Nat.lt_or_ge a.toNat b.toNat with hlt | hge
        · left; simp [goCharsLe, h, hlt]
        · right
          have h' : ¬ b.toNat = a.toNat := fun e => h e.symm
          simp only [goCharsLe, h', if_false, if_neg h', decide_eq_true_eq]
          omega

theorem goCharsLe_trans : ∀ as bs cs : List Char,
    goCharsLe as bs = true → goCharsLe bs cs = true → goCharsLe as cs = true := by
  intro as
  induction as with
  | nil => intro bs cs h1 h2; rfl
  | cons a as ih =>
    intro bs cs h1 h2
    cases bs with
    | nil => simp [goCharsLe] at h1
    | cons b bs =>
      cases cs with
      | nil => simp [goCharsLe] at h2
      | cons c cs =>
        simp only [goCharsLe] at h1 h2 ⊢
        by_cases hab : a.toNat = b.toNat
        · by_cases hbc : b.toNat = c.toNat
          · have hac : a.toNat = c.toNat := hab.trans hbc
            rw [if_pos hab] at h1
            rw [if_pos hbc] at h2
            rw [if_pos hac]
            exact ih bs cs h1 h2
          · have hac : ¬ a.toNat = c.toNat := fun e => hbc (hab ▸ e)
            rw [if_neg hbc] at h2
            rw [if_neg hac]
            rw [hab]
            exact h2
        · by_cases hbc : b.toNat = c.toNat
          · have hac : ¬ a.toNat = c.toNat := fun e => hab (e.trans hbc.symm)
            rw [if_neg hab] at h1
            rw [if_neg hac]
            rw [← hbc]
            exact h1
          · rw [if_neg hab] at h1
            rw [if_neg hbc] at h2
            simp only [decide_eq_true_eq] at h1 h2
            by_cases hac : a.toNat = c.toNat
            · omega
            · rw [if_neg hac]
              simp only [decide_eq_true_eq]
              omega

instance : IsTotal CurrencyWithBanStatus availOrder where
  total a b := by
    unfold availOrder
    rcases ha : a.banned <;> rcases hb : b.banned <;> simp [ha, hb] <;>
      exact goCharsLe_total _ _

instance : IsTrans CurrencyWithBanStatus availOrder where
  trans a b c hab hbc := by
    unfold availOrder at hab hbc ⊢
    rcases ha : a.banned <;> rcases hb : b.banned <;> rcases hc : c.banned <;>
      simp [ha, hb, hc] at hab hbc ⊢ <;>
      exact goCharsLe_trans _ _ _ hab hbc

theorem banLookup_spec {rows : List CurrencyWithBanStatus} {c : String}
    {r : CurrencyWithBanStatus} (h : banLookup rows c = some r) :
    r.currency = c ∧ r ∈ rows := by
  unfold banLookup at h
  have h1 := List.find?_some h
  have h2 := List.mem_of_find?_eq_some h
  exact ⟨by simpa using h1, by simpa using h2⟩

theorem availUnsorted_map_currency (registry : List String) (rows : List CurrencyWithBanStatus) :
    (availUnsorted registry rows).map (fun e => e.currency) = registry := by
  unfold availUnsorted
  rw [List.map_map]
  have hcong : ∀ curr ∈ registry,
      ((fun e : CurrencyWithBanStatus => e.currency) ∘
        (fun curr => (banLookup rows curr).getD ⟨curr, false⟩)) curr = id curr := by
    intro curr _
    simp only [Function.comp_apply, id_eq]
    cases h : banLookup rows curr with
    | none => simp
    | some r => simpa using (banLookup_spec h).1
  rw [List.map_congr_left hcong, List.map_id]

/-! ## Claims -/

/-- C4: availability flow cache-miss postcondition.  For every set of
ban-store rows, the computed result list contains exactly one entry per
Registry currency code (its currency projection is a permutation of the
registry, and is duplicate-free whenever the registry is), every code with
no store row carries `banned = false`, and the list is ordered with
banned entries first and, within each group, currency codes ascending
(`availOrder` is the source comparator: banned-first, then byte-wise
code order). -/
theorem C4_availability_result (registry : List String) (rows : List CurrencyWithBanStatus) :
    ((availResult registry rows).map (fun e => e.currency)).Perm registry
    ∧ (registry.Nodup → ((availResult registry rows).map (fun e => e.currency)).Nodup)
    ∧ (∀ e ∈ availResult registry rows,
        (∀ r ∈ rows, r.currency ≠ e.currency) → e.banned = false)
    ∧ (availResult registry rows).Pairwise availOrder := by
  have hperm : (availResult registry rows).Perm (availUnsorted registry rows) :=
    List.perm_insertionSort _ _
  have hmap : ((availResult registry rows).map (fun e => e.currency)).Perm registry := by
    have := hperm.map (fun e => e.currency)
    rwa [availUnsorted_map_currency] at this
  refine ⟨hmap, fun hnd => hmap.nodup_iff.mpr hnd, ?_, ?_⟩
  · intro e he hnone
    have he' : e ∈ availUnsorted registry rows := hperm.mem_iff.mp he
    unfold availUnsorted at he'
    obtain ⟨curr, hcur, heq⟩ := List.mem_map.mp he'
    cases h : banLookup rows curr with
    | none => rw [← heq]; simp [h]
    | some r =>
      obtain ⟨hc, hm⟩ := banLookup_spec h
      have her : e = r := by rw [← heq]; simp [h]
      exact absurd (by rw [her]) (hnone r hm)
  · have := List.sorted_insertionSort availOrder (availUnsorted registry rows)
    simpa [List.Sorted, availResult] using this

/-- Witness for C4 at the spec's own example: registry `{USD, EUR, GBP}`,
store rows `{USD: false, EUR: true, GBP: true}`, expected order
`[EUR, GBP, USD]`. -/
theorem C4_witness :
    ((availResult ["USD", "EUR", "GBP"] [⟨"USD", false⟩, ⟨"EUR", true⟩, ⟨"GBP", true⟩]).map
        (fun e => e.currency)).Perm ["USD", "EUR", "GBP"]
    ∧ ((availResult ["USD", "EUR", "GBP"] [⟨"USD", false⟩, ⟨"EUR", true⟩, ⟨"GBP", true⟩]).map
        (fun e => e.currency)).Nodup
    ∧ (availResult ["USD", "EUR", "GBP"]
        [⟨"USD", false⟩, ⟨"EUR", true⟩, ⟨"GBP", true⟩]).Pairwise availOrder
    ∧ availResult ["USD", "EUR", "GBP"] [⟨"USD", false⟩, ⟨"EUR", true⟩, ⟨"GBP", true⟩]
        = [⟨"EUR", true⟩, ⟨"GBP", true⟩, ⟨"USD", false⟩] :=
  ⟨(C4_availability_result _ _).1,
   (C4_availability_result _ _).2.1 (by decide),
   (C4_availability_result _ _).2.2.2,
   by decide⟩

/-- C8: cache operation error discipline.  Reads return a non-error absent
result exactly when the backend reports the key not present; backend
failure and malformed payloads surface as errors; a write or delete whose
reply reports nothing stored (empty SET status, HSET count 0, DEL count 0)
returns an error rather than succeeding silently. -/
theorem C8_cache_error_discipline :
    (∀ b : Stored (List CurrencyWithBanStatus),
      Redis.GetAvailableCurrencies b = .ok none ↔ b = .absent)
    ∧ (∀ e, Redis.GetAvailableCurrencies (.failure e)
        = .error ("error in getting available currencies: " ++ e))
    ∧ Redis.GetAvailableCurrencies (.payload none)
        = .error "parse currency currency availability data"
    ∧ (∀ (b : Stored CurrencyRates) (second : String),
      Redis.GetCurrencyLastRate b second = .ok none ↔ b = .absent)
    ∧ (∀ e second, Redis.GetCurrencyLastRate (.failure e) second
        = .error ("get currency last rate error: " ++ e))
    ∧ (∀ second, Redis.GetCurrencyLastRate (.payload none) second
        = .error "parse currency rate data")
    ∧ (∀ b : Stored CurrencyTimelineRate,
      Redis.GetTimestampRate b = .ok none ↔ b = .absent)
    ∧ Redis.SetAvailableCurrencies (.reply "") = .error "save no info"
    ∧ (∀ e, Redis.SetAvailableCurrencies (.failure e)
        = .error ("save available currencies: " ++ e))
    ∧ Redis.CleanCacheForAvailableCurrencies (.reply 0) = .error "deleted no info"
    ∧ Redis.SetCurrencyLastRate (.reply 0) = .error "save no info"
    ∧ (∀ e, Redis.SetCurrencyLastRate (.failure e)
        = .error ("save currency last rate: " ++ e))
    ∧ Redis.SaveTimestampRate (.reply 0) = .error "save no info" := by
  refine ⟨?_, fun e => rfl, rfl, ?_, fun e second => rfl, fun second => rfl, ?_,
    rfl, fun e => rfl, rfl, rfl, fun e => rfl, rfl⟩
  · intro b
    rcases b with _ | e | v
    · simp [Redis.GetAvailableCurrencies]
    · simp [Redis.GetAvailableCurrencies]
    · rcases v with _ | v <;> simp [Redis.GetAvailableCurrencies]
  · intro b second
    rcases b with _ | e | v
    · simp [Redis.GetCurrencyLastRate]
    · simp [Redis.GetCurrencyLastRate]
    · rcases v with _ | v <;> simp [Redis.GetCurrencyLastRate]
  · intro b
    rcases b with _ | e | v
    · simp [Redis.GetTimestampRate]
    · simp [Redis.GetTimestampRate]
    · rcases v with _ | v <;> simp [Redis.GetTimestampRate]

/-- Witness for C8: the absent/present biconditionals evaluated at concrete
backend replies. -/
theorem C8_witness :
    Redis.GetAvailableCurrencies .absent = .ok none
    ∧ Redis.GetCurrencyLastRate (.payload (some ⟨"USD", [("EUR", 2)], ⟨2024, 1, 1⟩⟩)) "EUR"
        ≠ .ok none
    ∧ Redis.GetTimestampRate .absent = .ok none :=
  ⟨(C8_cache_error_discipline.1 _).mpr rfl,
   fun h => by
     have := (C8_cache_error_discipline.2.2.2.1 _ "EUR").mp h
     simp at this,
   (C8_cache_error_discipline.2.2.2.2.2.2.1 _).mpr rfl⟩

/-- C10 (implicit): under redis HSET semantics the two hash write-throughs
replace an already-cached entry yet report the "save no info" error; the
write takes effect although the caller sees a failure. -/
theorem C10_overwrite_reports_failure
    (store1 : List (String × CurrencyRates)) (snap : CurrencyRates)
    (store2 : List (String × CurrencyTimelineRate)) (tl : CurrencyTimelineRate)
    (h1 : (alookup store1 snap.base).isSome = true)
    (h2 : (alookup store2 (tl.base ++ ":" ++ tl.second)).isSome = true) :
    alookup (Redis.SetCurrencyLastRateState store1 snap).1 snap.base = some snap
    ∧ (Redis.SetCurrencyLastRateState store1 snap).2 = .error "save no info"
    ∧ alookup (Redis.SaveTimestampRateState store2 tl).1 (tl.base ++ ":" ++ tl.second) = some tl
    ∧ (Redis.SaveTimestampRateState store2 tl).2 = .error "save no info" := by
  obtain ⟨ha1, ha2⟩ := hset_existing store1 snap.base snap h1
  obtain ⟨hb1, hb2⟩ := hset_existing store2 (tl.base ++ ":" ++ tl.second) tl h2
  refine ⟨ha1, ?_, hb1, ?_⟩
  · simp [Redis.SetCurrencyLastRateState, ha2]
  · simp [Redis.SaveTimestampRateState, hb2]

/-- Witness for C10: overwriting the cached USD snapshot stores the new
value and still reports the error. -/
theorem C10_witness :
    alookup (Redis.SetCurrencyLastRateState [("USD", ⟨"USD", [("EUR", 2)], ⟨2024, 1, 1⟩⟩)]
        ⟨"USD", [("EUR", 3)], ⟨2024, 1, 2⟩⟩).1 "USD"
      = some ⟨"USD", [("EUR", 3)], ⟨2024, 1, 2⟩⟩
    ∧ (Redis.SetCurrencyLastRateState [("USD", ⟨"USD", [("EUR", 2)], ⟨2024, 1, 1⟩⟩)]
        ⟨"USD", [("EUR", 3)], ⟨2024, 1, 2⟩⟩).2 = .error "save no info"
    ∧ alookup (Redis.SaveTimestampRateState
        [("USD:EUR", ⟨"USD", "EUR", [], [], ⟨2023, 1, 1⟩, ⟨2024, 1, 1⟩⟩)]
        ⟨"USD", "EUR", [(⟨2024, 1, 1⟩, 7)], [], ⟨2023, 1, 1⟩, ⟨2024, 1, 1⟩⟩).1 "USD:EUR"
      = some ⟨"USD", "EUR", [(⟨2024, 1, 1⟩, 7)], [], ⟨2023, 1, 1⟩, ⟨2024, 1, 1⟩⟩
    ∧ (Redis.SaveTimestampRateState
        [("USD:EUR", ⟨"USD", "EUR", [], [], ⟨2023, 1, 1⟩, ⟨2024, 1, 1⟩⟩)]
        ⟨"USD", "EUR", [(⟨2024, 1, 1⟩, 7)], [], ⟨2023, 1, 1⟩, ⟨2024, 1, 1⟩⟩).2
      = .error "save no info" :=
  C10_overwrite_reports_failure _ _ _ _ (by decide) (by decide)

theorem alookup_timeline_filter (l : List (CustomTime × Rat)) (startDate endDate k : CustomTime) :
    alookup (l.filter
        (fun p => decide (p.1 = startDate) || (dateLt startDate p.1 && dateLt p.1 endDate))) k
      = if decide (k = startDate) || (dateLt startDate k && dateLt k endDate) then alookup l k
        else none :=
  alookup_filter (fun t => decide (t = startDate) || (dateLt startDate t && dateLt t endDate)) l k

/-- C2 (amended): the timeline response assembly keeps exactly the entries
of the full series whose date is the requested start or lies strictly
between start and end — i.e. the window is inclusive at `start` but
EXCLUSIVE at `end` (the source condition is `t.Equal(startDate) ||
t.After(startDate) && t.Before(endDate)`) — while the predictions map is
passed through unfiltered and the requested bounds are echoed back. -/
theorem C2_timeline_assembly (full : CurrencyTimelineRate) (startDate endDate : CustomTime) :
    (∀ k : CustomTime,
      alookup (assembleTimelineResult full startDate endDate).rates k
        = if k = startDate ∨ (dateLt startDate k = true ∧ dateLt k endDate = true)
          then alookup full.rates k else none)
    ∧ (assembleTimelineResult full startDate endDate).predictions = full.predictions
    ∧ (assembleTimelineResult full startDate endDate).startDate = startDate
    ∧ (assembleTimelineResult full startDate endDate).endDate = endDate
    ∧ (assembleTimelineResult full startDate endDate).base = full.base
    ∧ (assembleTimelineResult full startDate endDate).second = full.second := by
  refine ⟨?_, rfl, rfl, rfl, rfl, rfl⟩
  intro k
  show alookup (full.rates.filter
      (fun p => decide (p.1 = startDate) || (dateLt startDate p.1 && dateLt p.1 endDate))) k = _
  rw [alookup_timeline_filter]
  by_cases hc : k = startDate ∨ (dateLt startDate k = true ∧ dateLt k endDate = true)
  · rw [if_pos ?_, if_pos hc]
    rcases hc with hc | ⟨hc1, hc2⟩
    · simp [hc]
    · simp [hc1, hc2]
  · rw [if_neg ?_, if_neg hc]
    simp only [Bool.or_eq_true, Bool.and_eq_true, decide_eq_true_eq]
    push_neg at hc
    rintro (h | h)
    · exact hc.1 h
    · exact hc.2 h.1 h.2

/-- Counterexample to C2 as stated: with a cached series containing an entry
dated exactly at the requested `end`, that entry is dropped from the
response although it lies in the inclusive window `[start, end]`. -/
theorem C2_counterexample :
    alookup (assembleTimelineResult
        ⟨"USD", "EUR", [(⟨2024, 1, 15⟩, 1), (⟨2024, 1, 20⟩, 2)], [], ⟨2023, 1, 10⟩, ⟨2024, 1, 9⟩⟩
        ⟨2024, 1, 10⟩ ⟨2024, 1, 20⟩).rates ⟨2024, 1, 20⟩
      = none
    ∧ alookup ([(⟨2024, 1, 15⟩, 1), (⟨2024, 1, 20⟩, 2)] : List (CustomTime × Rat))
        ⟨2024, 1, 20⟩ = some 2
    ∧ (dateLt ⟨2024, 1, 10⟩ ⟨2024, 1, 20⟩ = true ∨ (⟨2024, 1, 20⟩ : CustomTime) = ⟨2024, 1, 10⟩) := by
  refine ⟨by decide, by decide, by decide⟩

/-- C6 (amended): for every calendar-valid `YYYY-MM-DD` text other than
`0001-01-01` — equivalently, for every valid date `⟨y, m, d⟩` with a
four-digit year that is not the zero-time sentinel — the codec round-trips:
parsing the canonical text recovers the date, marshalling emits exactly the
quoted canonical text, and unmarshalling that text recovers the date again.
The unset sentinel serialises to the literal `null` token and `null` parses
back to the sentinel.  (The text `0001-01-01` itself is the necessary
exception: it parses to the zero time, which marshals to `null`.) -/
theorem C6_codec_roundtrip :
    (∀ y m d : Nat, y ≤ 9999 → 1 ≤ m → m ≤ 12 → 1 ≤ d → d ≤ daysInMonth y m →
      ¬(y = 1 ∧ m = 1 ∧ d = 1) →
      parseDate (formatDate ⟨y, m, d⟩) = some ⟨y, m, d⟩
      ∧ CustomTime.MarshalJSON ⟨y, m, d⟩ = "\"" ++ formatDate ⟨y, m, d⟩ ++ "\""
      ∧ CustomTime.UnmarshalJSON (formatDate ⟨y, m, d⟩) = some ⟨y, m, d⟩)
    ∧ CustomTime.MarshalJSON nilTime = "null"
    ∧ CustomTime.UnmarshalJSON "null" = some nilTime := by
  refine ⟨?_, rfl, rfl⟩
  intro y m d hy hm1 hm2 hd1 hd2 hsent
  have hne : (⟨y, m, d⟩ : CustomTime) ≠ nilTime := by
    intro h
    rw [show nilTime = ⟨1, 1, 1⟩ from rfl, CustomTime.mk.injEq] at h
    exact hsent h
  refine ⟨parseDate_formatDate y m d hy hm1 hm2 hd1 hd2, ?_,
    UnmarshalJSON_formatDate y m d hy hm1 hm2 hd1 hd2⟩
  rw [CustomTime.MarshalJSON, if_neg hne]

/-- Witness for C6: the round-trip at `2024-03-05`. -/
theorem C6_witness :
    parseDate (formatDate ⟨2024, 3, 5⟩) = some ⟨2024, 3, 5⟩
    ∧ CustomTime.MarshalJSON ⟨2024, 3, 5⟩ = "\"" ++ formatDate ⟨2024, 3, 5⟩ ++ "\""
    ∧ CustomTime.UnmarshalJSON (formatDate ⟨2024, 3, 5⟩) = some ⟨2024, 3, 5⟩
    ∧ formatDate ⟨2024, 3, 5⟩ = "2024-03-05"
    ∧ CustomTime.MarshalJSON nilTime = "null"
    ∧ CustomTime.UnmarshalJSON "null" = some nilTime :=
  ⟨((C6_codec_roundtrip.1 2024 3 5 (by decide) (by decide) (by decide) (by decide) (by decide)
      (by decide))).1,
   ((C6_codec_roundtrip.1 2024 3 5 (by decide) (by decide) (by decide) (by decide) (by decide)
      (by decide))).2.1,
   ((C6_codec_roundtrip.1 2024 3 5 (by decide) (by decide) (by decide) (by decide) (by decide)
      (by decide))).2.2,
   by decide, C6_codec_roundtrip.2.1, C6_codec_roundtrip.2.2⟩

/-- Counterexample to C6 as stated: `0001-01-01` is a canonical text
denoting a valid date, yet it parses to the zero-time sentinel and
marshalling that value yields `null`, not `"0001-01-01"` — so
`format(parse(text)) = text` fails at this text. -/
theorem C6_counterexample :
    formatDate ⟨1, 1, 1⟩ = "0001-01-01"
    ∧ parseDate "0001-01-01" = some ⟨1, 1, 1⟩
    ∧ CustomTime.MarshalJSON ⟨1, 1, 1⟩ = "null"
    ∧ CustomTime.MarshalJSON ⟨1, 1, 1⟩ ≠ "\"0001-01-01\""
    ∧ 1 ≤ daysInMonth 1 1 := by
  refine ⟨by decide, by decide, by decide, by decide, by decide⟩

/-- C7: forecast augmentation shape.  Counting predicted values from index
`N = 0`, the augmentation loop keys the `N`-th predicted value to
`yesterday + (N + 1)` days (the first value lands on today), producing
exactly one entry per predicted value on strictly increasing consecutive
days. -/
theorem C7_prediction_mapping (today : CustomTime) (rs : List Rat) (hv : ValidDate today) :
    buildPredictions today rs
      = rs.enum.map (fun p => (addDays (prevDay today) (p.1 + 1), p.2))
    ∧ (buildPredictions today rs).length = rs.length
    ∧ List.Pairwise (fun a b : CustomTime × Rat => dateLt a.1 b.1 = true)
        (buildPredictions today rs) := by
  refine ⟨?_, by simp [buildPredictions], ?_⟩
  · unfold buildPredictions
    apply List.map_congr_left
    intro p hp
    have : addDays (prevDay today) (p.1 + 1) = addDays today p.1 := by
      rw [addDays_succ, nextDay_prevDay hv]
    rw [this]
  · unfold buildPredictions
    rw [List.pairwise_map]
    have h1 : List.Pairwise (· < ·) ((rs.enum).map Prod.fst) := by
      rw [List.enum_map_fst]
      exact List.pairwise_lt_range _
    have h2 := List.pairwise_map.mp h1
    exact h2.imp (fun h => dateLt_addDays h)

/-- Witness for C7: two predicted values on a valid date land on today and
tomorrow. -/
theorem C7_witness :
    ValidDate ⟨2024, 1, 2⟩
    ∧ buildPredictions ⟨2024, 1, 2⟩ [4, 5]
        = ([(0, 4), (1, 5)] : List (Nat × Rat)).map
            (fun p => (addDays (prevDay ⟨2024, 1, 2⟩) (p.1 + 1), p.2))
    ∧ buildPredictions ⟨2024, 1, 2⟩ [4, 5] = [(⟨2024, 1, 2⟩, 4), (⟨2024, 1, 3⟩, 5)] :=
  ⟨by decide, (C7_prediction_mapping ⟨2024, 1, 2⟩ [4, 5] (by decide)).1, by decide⟩

/-- C1 (amended): the cache hit is returned as-is exactly when the source's
freshness condition holds — the cached date's (year, month) precedes
today's, or the cached date equals today exactly (`rDay == nDay`); in
particular a cached entry of the same month on an earlier day is NOT
returned.  Any miss, or a hit rejected by that condition, triggers exactly
one provider fetch for yesterday followed (on success with the target
present) by exactly one cache write of the whole snapshot. -/
theorem C1_current_rate_flow (registry : List String) (base second : String)
    (today : CustomTime) (prov : Option CurrencyRatesResponse) (w : RedisReply Nat)
    (hb : registry.contains base = true) (hs : registry.contains second = true) :
    (∀ snap : CurrencyRates, freshCheck snap.date today = true →
      GetCurrentCurrencyRate registry base second today ⟨.payload (some snap), prov, w⟩
        = ⟨[.cacheReadLastRate base], [], .ok (snap.ToResultRate second)⟩)
    ∧ (∀ (backend : Stored CurrencyRates) (resp : CurrencyRatesResponse),
      (backend = .absent
        ∨ ∃ snap, backend = .payload (some snap) ∧ freshCheck snap.date today = false) →
      prov = some resp → resp.success = true →
      (alookup resp.payload.rates second).isSome = true →
      GetCurrentCurrencyRate registry base second today ⟨backend, prov, w⟩
        = ⟨[.cacheReadLastRate base, .providerFetchSnapshot (prevDay today) base,
            .cacheWriteLastRate resp.payload],
           bestEffortLog (Redis.SetCurrencyLastRate w) "error in save new rate",
           .ok (resp.payload.ToResultRate second)⟩) := by
  have hb' : base ∈ registry := by simpa using hb
  have hs' : second ∈ registry := by simpa using hs
  constructor
  · intro snap hf
    have hf' : freshCheck (CurrencyRates.ToResultRate snap second).date today = true := by
      simpa [CurrencyRates.ToResultRate] using hf
    simp [GetCurrentCurrencyRate, hb', hs', Redis.GetCurrencyLastRate, hf']
  · intro backend resp hmiss hp hsucc hlook
    subst hp
    have hfetch : currentRateFetch base second today ⟨backend, some resp, w⟩
        [.cacheReadLastRate base]
        = ⟨[.cacheReadLastRate base, .providerFetchSnapshot (prevDay today) base,
            .cacheWriteLastRate resp.payload],
           bestEffortLog (Redis.SetCurrencyLastRate w) "error in save new rate",
           .ok (resp.payload.ToResultRate second)⟩ := by
      have hn : (alookup resp.payload.rates second).isNone = false := by
        rcases h : alookup resp.payload.rates second with _ | v
        · rw [h] at hlook; simp at hlook
        · rfl
      simp [currentRateFetch, hsucc, hn]
    rcases hmiss with h | ⟨snap, hbe, hst⟩
    · subst h
      simp [GetCurrentCurrencyRate, hb', hs', Redis.GetCurrencyLastRate, hfetch]
    · subst hbe
      have hst' : freshCheck (CurrencyRates.ToResultRate snap second).date today = false := by
        simpa [CurrencyRates.ToResultRate] using hst
      simp [GetCurrentCurrencyRate, hb', hs', Redis.GetCurrencyLastRate, hst', hfetch]

/-- Witness for C1: a cache hit from an earlier month is returned as-is
with no further calls; a cache miss performs exactly the read, one fetch
for yesterday, and one snapshot write. -/
theorem C1_witness :
    GetCurrentCurrencyRate ["USD", "EUR"] "USD" "EUR" ⟨2024, 2, 15⟩
        ⟨.payload (some ⟨"USD", [("EUR", 2)], ⟨2024, 1, 1⟩⟩),
         some ⟨true, ⟨"USD", [("EUR", 3)], ⟨2024, 2, 14⟩⟩⟩, .reply 1⟩
      = ⟨[.cacheReadLastRate "USD"], [],
         .ok (CurrencyRates.ToResultRate ⟨"USD", [("EUR", 2)], ⟨2024, 1, 1⟩⟩ "EUR")⟩
    ∧ GetCurrentCurrencyRate ["USD", "EUR"] "USD" "EUR" ⟨2024, 2, 15⟩
        ⟨.absent, some ⟨true, ⟨"USD", [("EUR", 3)], ⟨2024, 2, 14⟩⟩⟩, .reply 1⟩
      = ⟨[.cacheReadLastRate "USD", .providerFetchSnapshot ⟨2024, 2, 14⟩ "USD",
          .cacheWriteLastRate ⟨"USD", [("EUR", 3)], ⟨2024, 2, 14⟩⟩], [],
         .ok (CurrencyRates.ToResultRate ⟨"USD", [("EUR", 3)], ⟨2024, 2, 14⟩⟩ "EUR")⟩ :=
  ⟨(C1_current_rate_flow ["USD", "EUR"] "USD" "EUR" ⟨2024, 2, 15⟩
      (some ⟨true, ⟨"USD", [("EUR", 3)], ⟨2024, 2, 14⟩⟩⟩) (.reply 1)
      (by decide) (by decide)).1 _ (by decide),
   ((C1_current_rate_flow ["USD", "EUR"] "USD" "EUR" ⟨2024, 2, 15⟩
      (some ⟨true, ⟨"USD", [("EUR", 3)], ⟨2024, 2, 14⟩⟩⟩) (.reply 1)
      (by decide) (by decide)).2 .absent _ (Or.inl rfl) rfl (by decide) (by decide)).trans
     (by decide)⟩

/-- Counterexample to C1 as stated: a cached entry dated 2024-01-01 with
"today" = 2024-01-02 has a calendar date strictly before today, yet the
flow does NOT return it — the day clause of the freshness check demands
`rDay == nDay`, so the flow falls through to a provider fetch and cache
write and answers with the freshly fetched rate instead of the cached
one. -/
theorem C1_counterexample :
    GetCurrentCurrencyRate ["USD", "EUR"] "USD" "EUR" ⟨2024, 1, 2⟩
        ⟨.payload (some ⟨"USD", [("EUR", 2)], ⟨2024, 1, 1⟩⟩),
         some ⟨true, ⟨"USD", [("EUR", 3)], ⟨2024, 1, 1⟩⟩⟩, .reply 1⟩
      = ⟨[.cacheReadLastRate "USD", .providerFetchSnapshot ⟨2024, 1, 1⟩ "USD",
          .cacheWriteLastRate ⟨"USD", [("EUR", 3)], ⟨2024, 1, 1⟩⟩], [],
         .ok ⟨"USD", "EUR", 3, ⟨2024, 1, 1⟩⟩⟩
    ∧ (GetCurrentCurrencyRate ["USD", "EUR"] "USD" "EUR" ⟨2024, 1, 2⟩
        ⟨.payload (some ⟨"USD", [("EUR", 2)], ⟨2024, 1, 1⟩⟩),
         some ⟨true, ⟨"USD", [("EUR", 3)], ⟨2024, 1, 1⟩⟩⟩, .reply 1⟩).outcome
      ≠ .ok ⟨"USD", "EUR", 2, ⟨2024, 1, 1⟩⟩
    ∧ dateLt ⟨2024, 1, 1⟩ ⟨2024, 1, 2⟩ = true := by
  refine ⟨by decide, by decide, by decide⟩

/-- C3 (amended): when the snapshot comes FRESHLY FROM THE PROVIDER, a
requested target absent from its `rates` map yields the distinct
"cannot find rate" client-fault before any cache write, and the flow never
answers with a zero-valued projection.  (On the CACHE path the guarantee
fails — see the counterexample: the cached snapshot is projected through
`ToResultRate`, whose Go map read defaults a missing target to rate 0.) -/
theorem C3_missing_target_provider_path (registry : List String) (base second : String)
    (today : CustomTime) (resp : CurrencyRatesResponse) (w : RedisReply Nat)
    (hb : registry.contains base = true) (hs : registry.contains second = true)
    (hsucc : resp.success = true) (habs : alookup resp.payload.rates second = none) :
    GetCurrentCurrencyRate registry base second today ⟨.absent, some resp, w⟩
      = ⟨[.cacheReadLastRate base, .providerFetchSnapshot (prevDay today) base], [],
         .clientError ("cannot find rate for " ++ second)⟩
    ∧ ∀ r : CurrencyRate,
        (GetCurrentCurrencyRate registry base second today ⟨.absent, some resp, w⟩).outcome
          ≠ .ok r := by
  have hb' : base ∈ registry := by simpa using hb
  have hs' : second ∈ registry := by simpa using hs
  have hmain : GetCurrentCurrencyRate registry base second today ⟨.absent, some resp, w⟩
      = ⟨[.cacheReadLastRate base, .providerFetchSnapshot (prevDay today) base], [],
         .clientError ("cannot find rate for " ++ second)⟩ := by
    simp [GetCurrentCurrencyRate, hb', hs', Redis.GetCurrencyLastRate, currentRateFetch,
      hsucc, habs]
  refine ⟨hmain, fun r h => ?_⟩
  rw [hmain] at h
  simp at h

/-- Witness for C3: requesting USD→EUR against a provider snapshot that
only quotes RUB. -/
theorem C3_witness :
    GetCurrentCurrencyRate ["USD", "EUR"] "USD" "EUR" ⟨2024, 1, 2⟩
        ⟨.absent, some ⟨true, ⟨"USD", [("RUB", 5)], ⟨2024, 1, 1⟩⟩⟩, .reply 1⟩
      = ⟨[.cacheReadLastRate "USD", .providerFetchSnapshot ⟨2024, 1, 1⟩ "USD"], [],
         .clientError ("cannot find rate for " ++ "EUR")⟩ :=
  (C3_missing_target_provider_path ["USD", "EUR"] "USD" "EUR" ⟨2024, 1, 2⟩
    ⟨true, ⟨"USD", [("RUB", 5)], ⟨2024, 1, 1⟩⟩⟩ (.reply 1)
    (by decide) (by decide) (by decide) (by decide)).1.trans (by decide)

/-- Counterexample to C3 as stated: with a CACHED snapshot for USD that
does not quote EUR (and whose date passes the freshness check), the flow
answers 200 OK with a zero-valued rate for USD→EUR instead of a "not
found" client fault. -/
theorem C3_counterexample :
    (GetCurrentCurrencyRate ["USD", "EUR"] "USD" "EUR" ⟨2024, 1, 2⟩
        ⟨.payload (some ⟨"USD", [("RUB", 5)], ⟨2023, 12, 31⟩⟩), none, .reply 1⟩).outcome
      = .ok ⟨"USD", "EUR", 0, ⟨2023, 12, 31⟩⟩
    ∧ alookup ([("RUB", 5)] : List (String × Rat)) "EUR" = none := by
  refine ⟨by decide, by decide⟩

/-- C5: on the three endpoints that carry currency codes, a code outside
the registry — and, on the timeline endpoint, an unparseable start or end
date — produces a client-fault outcome with an EMPTY call trace: no cache,
store or provider call is made.  (The availability endpoint carries no
currency parameter, so the claim is vacuous there.) -/
theorem C5_validation_before_io (registry : List String) (base second s e currency : String)
    (bannedFlag : Bool) (today : CustomTime) (env1 : CurrentRateEnv) (env2 : TimelineEnv)
    (env3 : BanEnv) :
    (registry.contains base = false →
      GetCurrentCurrencyRate registry base second today env1
        = ⟨[], [], .clientError "invalid base currency code"⟩)
    ∧ (registry.contains base = true → registry.contains second = false →
      GetCurrentCurrencyRate registry base second today env1
        = ⟨[], [], .clientError "invalid second currency code"⟩)
    ∧ (registry.contains base = false →
      GetTimelineCurrencyRate registry base second s e today env2
        = ⟨[], [], .clientError "invalid base currency code"⟩)
    ∧ (registry.contains base = true → registry.contains second = false →
      GetTimelineCurrencyRate registry base second s e today env2
        = ⟨[], [], .clientError "invalid second currency code"⟩)
    ∧ (registry.contains base = true → registry.contains second = true →
       parseDate s = none →
      GetTimelineCurrencyRate registry base second s e today env2
        = ⟨[], [], .clientError "invalid start period date"⟩)
    ∧ (registry.contains base = true → registry.contains second = true →
       (parseDate s).isSome = true → parseDate e = none →
      GetTimelineCurrencyRate registry base second s e today env2
        = ⟨[], [], .clientError "invalid end period date"⟩)
    ∧ (registry.contains currency = false →
      ChangeCurrencyBanStatus registry (some (currency, bannedFlag)) env3
        = ⟨[], [], .clientError "invalid currency"⟩) := by
  refine ⟨?_, ?_, ?_, ?_, ?_, ?_, ?_⟩
  · intro h
    have h' : ¬ base ∈ registry := by simpa using h
    simp [GetCurrentCurrencyRate, h']
  · intro hb h
    have hb' : base ∈ registry := by simpa using hb
    have h' : ¬ second ∈ registry := by simpa using h
    simp [GetCurrentCurrencyRate, hb', h']
  · intro h
    have h' : ¬ base ∈ registry := by simpa using h
    simp [GetTimelineCurrencyRate, h']
  · intro hb h
    have hb' : base ∈ registry := by simpa using hb
    have h' : ¬ second ∈ registry := by simpa using h
    simp [GetTimelineCurrencyRate, hb', h']
  · intro hb hs hps
    have hb' : base ∈ registry := by simpa using hb
    have hs' : second ∈ registry := by simpa using hs
    simp [GetTimelineCurrencyRate, hb', hs', hps]
  · intro hb hs hps hpe
    have hb' : base ∈ registry := by simpa using hb
    have hs' : second ∈ registry := by simpa using hs
    rcases h : parseDate s with _ | d0
    · rw [h] at hps; simp at hps
    · simp [GetTimelineCurrencyRate, hb', hs', h, hpe]
  · intro h
    have h' : ¬ currency ∈ registry := by simpa using h
    simp [ChangeCurrencyBanStatus, h']

/-- Witness for C5: the code `"XXX"` outside the registry `{USD, EUR}` is
rejected by all three code-carrying endpoints with an empty trace, and a
malformed timeline date is rejected likewise. -/
theorem C5_witness :
    GetCurrentCurrencyRate ["USD", "EUR"] "XXX" "EUR" ⟨2024, 1, 2⟩
        ⟨.absent, none, .reply 1⟩
      = ⟨[], [], .clientError "invalid base currency code"⟩
    ∧ GetTimelineCurrencyRate ["USD", "EUR"] "XXX" "EUR" "2024-01-10" "2024-01-20" ⟨2024, 1, 2⟩
        ⟨.absent, none, none, .reply 1⟩
      = ⟨[], [], .clientError "invalid base currency code"⟩
    ∧ GetTimelineCurrencyRate ["USD", "EUR"] "USD" "EUR" "10.01.2024" "2024-01-20" ⟨2024, 1, 2⟩
        ⟨.absent, none, none, .reply 1⟩
      = ⟨[], [], .clientError "invalid start period date"⟩
    ∧ ChangeCurrencyBanStatus ["USD", "EUR"] (some ("XXX", true)) ⟨.ok (), .reply 1⟩
      = ⟨[], [], .clientError "invalid currency"⟩ :=
  ⟨(C5_validation_before_io ["USD", "EUR"] "XXX" "EUR" "" "" "" true ⟨2024, 1, 2⟩
      ⟨.absent, none, .reply 1⟩ ⟨.absent, none, none, .reply 1⟩ ⟨.ok (), .reply 1⟩).1
      (by decide),
   (C5_validation_before_io ["USD", "EUR"] "XXX" "EUR" "2024-01-10" "2024-01-20" "" true
      ⟨2024, 1, 2⟩ ⟨.absent, none, .reply 1⟩ ⟨.absent, none, none, .reply 1⟩
      ⟨.ok (), .reply 1⟩).2.2.1 (by decide),
   (C5_validation_before_io ["USD", "EUR"] "USD" "EUR" "10.01.2024" "2024-01-20" "" true
      ⟨2024, 1, 2⟩ ⟨.absent, none, .reply 1⟩ ⟨.absent, none, none, .reply 1⟩
      ⟨.ok (), .reply 1⟩).2.2.2.2.1 (by decide) (by decide) (by decide),
   (C5_validation_before_io ["USD", "EUR"] "USD" "EUR" "" "" "XXX" true ⟨2024, 1, 2⟩
      ⟨.absent, none, .reply 1⟩ ⟨.absent, none, none, .reply 1⟩
      ⟨.ok (), .reply 1⟩).2.2.2.2.2.2 (by decide)⟩

/-- C9: cache write-throughs and the availability-cache invalidation are
best-effort.  Swapping the backend's reply to the write/delete for any
other reply leaves every flow's outcome AND its call trace unchanged (only
the emitted log lines can differ): a failed write-back or invalidation is
logged, never surfaced. -/
theorem C9_best_effort_cache_writes (registry : List String)
    (base second s e currency : String) (bannedFlag : Bool) (today : CustomTime)
    (ab : Stored (List CurrencyWithBanStatus)) (db1 : Except String (List CurrencyWithBanStatus))
    (w1 w1' : RedisReply String)
    (lb : Stored CurrencyRates) (pv : Option CurrencyRatesResponse) (w2 w2' : RedisReply Nat)
    (tb : Stored CurrencyTimelineRate) (tpv : Option CurrencyTimelineRatesResponse)
    (pred : Option (List Rat)) (w3 w3' : RedisReply Nat)
    (db2 : Except String Unit) (w4 w4' : RedisReply Nat) :
    ((GetAvailableCurrencies registry ⟨ab, db1, w1⟩).outcome
        = (GetAvailableCurrencies registry ⟨ab, db1, w1'⟩).outcome
      ∧ (GetAvailableCurrencies registry ⟨ab, db1, w1⟩).trace
        = (GetAvailableCurrencies registry ⟨ab, db1, w1'⟩).trace)
    ∧ ((GetCurrentCurrencyRate registry base second today ⟨lb, pv, w2⟩).outcome
        = (GetCurrentCurrencyRate registry base second today ⟨lb, pv, w2'⟩).outcome
      ∧ (GetCurrentCurrencyRate registry base second today ⟨lb, pv, w2⟩).trace
        = (GetCurrentCurrencyRate registry base second today ⟨lb, pv, w2'⟩).trace)
    ∧ ((GetTimelineCurrencyRate registry base second s e today ⟨tb, tpv, pred, w3⟩).outcome
        = (GetTimelineCurrencyRate registry base second s e today ⟨tb, tpv, pred, w3'⟩).outcome
      ∧ (GetTimelineCurrencyRate registry base second s e today ⟨tb, tpv, pred, w3⟩).trace
        = (GetTimelineCurrencyRate registry base second s e today ⟨tb, tpv, pred, w3'⟩).trace)
    ∧ ((ChangeCurrencyBanStatus registry (some (currency, bannedFlag)) ⟨db2, w4⟩).outcome
        = (ChangeCurrencyBanStatus registry (some (currency, bannedFlag)) ⟨db2, w4'⟩).outcome
      ∧ (ChangeCurrencyBanStatus registry (some (currency, bannedFlag)) ⟨db2, w4⟩).trace
        = (ChangeCurrencyBanStatus registry (some (currency, bannedFlag)) ⟨db2, w4'⟩).trace) := by
  refine ⟨?_, ?_, ?_, ?_⟩
  · rcases ab with _ | msg | (_ | v) <;> rcases db1 with msg2 | rows <;>
      simp [GetAvailableCurrencies, Redis.GetAvailableCurrencies]
  · by_cases hb : base ∈ registry
    · by_cases hs : second ∈ registry
      · have hfetch : ∀ pre, (currentRateFetch base second today ⟨lb, pv, w2⟩ pre).outcome
              = (currentRateFetch base second today ⟨lb, pv, w2'⟩ pre).outcome
            ∧ (currentRateFetch base second today ⟨lb, pv, w2⟩ pre).trace
              = (currentRateFetch base second today ⟨lb, pv, w2'⟩ pre).trace := by
          intro pre
          rcases pv with _ | resp
          · simp [currentRateFetch]
          · by_cases hsucc : resp.success <;>
              by_cases hlook : (alookup resp.payload.rates second).isNone <;>
              simp [currentRateFetch, hsucc, hlook]
        rcases hcache : Redis.GetCurrencyLastRate lb second with msg | (_ | rate)
        · simp [GetCurrentCurrencyRate, hb, hs, hcache]
        · simpa [GetCurrentCurrencyRate, hb, hs, hcache] using hfetch _
        · by_cases hfr : freshCheck rate.date today <;>
            simp [GetCurrentCurrencyRate, hb, hs, hcache, hfr]
          exact hfetch _
      · simp [GetCurrentCurrencyRate, hb, hs]
    · simp [GetCurrentCurrencyRate, hb]
  · by_cases hb : base ∈ registry
    · by_cases hs : second ∈ registry
      · rcases hps : parseDate s with _ | d1
        · simp [GetTimelineCurrencyRate, hb, hs, hps]
        · rcases hpe : parseDate e with _ | d2
          · simp [GetTimelineCurrencyRate, hb, hs, hps, hpe]
          · have hfetch : ∀ pre,
                (timelineFetch base second today ⟨tb, tpv, pred, w3⟩ pre).1.outcome
                  = (timelineFetch base second today ⟨tb, tpv, pred, w3'⟩ pre).1.outcome
                ∧ (timelineFetch base second today ⟨tb, tpv, pred, w3⟩ pre).1.trace
                  = (timelineFetch base second today ⟨tb, tpv, pred, w3'⟩ pre).1.trace
                ∧ (timelineFetch base second today ⟨tb, tpv, pred, w3⟩ pre).2
                  = (timelineFetch base second today ⟨tb, tpv, pred, w3'⟩ pre).2 := by
              intro pre
              rcases tpv with _ | resp
              · simp [timelineFetch]
              · by_cases hsucc : resp.success <;> rcases pred with _ | rates <;>
                  simp [timelineFetch, hsucc]
            rcases hcache : Redis.GetTimestampRate tb with msg | (_ | rate)
            · simp [GetTimelineCurrencyRate, hb, hs, hps, hpe, hcache]
            · have h := hfetch [.cacheReadTimeline base second]
              rcases hf2 : (timelineFetch base second today ⟨tb, tpv, pred, w3⟩
                  [.cacheReadTimeline base second]).2 with _ | cr
              · simp [GetTimelineCurrencyRate, hb, hs, hps, hpe, hcache, hf2,
                  hf2 ▸ h.2.2.symm, h.1, h.2.1]
              · simp [GetTimelineCurrencyRate, hb, hs, hps, hpe, hcache, hf2,
                  hf2 ▸ h.2.2.symm, h.1, h.2.1]
            · simp [GetTimelineCurrencyRate, hb, hs, hps, hpe, hcache]
      · simp [GetTimelineCurrencyRate, hb, hs]
    · simp [GetTimelineCurrencyRate, hb]
  · by_cases hc : currency ∈ registry <;> rcases db2 with msg | u <;>
      simp [ChangeCurrencyBanStatus, hc]
